import Mathlib

/-!
Verification of the FAQ ingestion pipeline in `parse-faq.py`.

Text is modelled as `List Char`.  `clean_line`, `parse_document`,
`read_faq`, `process_faq_documents` and the orchestration in `main`
are embedded below, following the Python source line by line; the
external collaborators (network fetch plus DOCX decoding, MongoDB)
are parameters supplying a paragraph sequence per locator and
consuming the aggregate.
-/

/-! ## Definitions -/

/-- The set of characters stripped by Python's argumentless
`str.strip()` (the characters for which `str.isspace()` holds). -/
def isPySpace (c : Char) : Bool :=
  let n := c.toNat
  (9 ≤ n && n ≤ 13) || (28 ≤ n && n ≤ 31) || n = 32 || n = 0x85 ||
    n = 0xa0 || n = 0x1680 || (0x2000 ≤ n && n ≤ 0x200a) || n = 0x2028 ||
    n = 0x2029 || n = 0x202f || n = 0x205f || n = 0x3000

/-- The byte-order-mark character U+FEFF, the single character stripped
by the source's `.strip(chr(0xFEFF))` call. -/
def isBOM (c : Char) : Bool := c = '﻿'

/-- Python `s.strip(chars)`: remove the characters satisfying `p` from
both ends of the string. -/
def pyStripChars (p : Char → Bool) (l : List Char) : List Char :=
  (l.dropWhile p).rdropWhile p

/-- Python `s.strip()` with no argument: whitespace from both ends. -/
def pyStrip (l : List Char) : List Char := pyStripChars isPySpace l

/-- `clean_line` from the source: `line.strip().strip(chr(0xFEFF))` —
whitespace is stripped from both ends first, then any run of
byte-order-mark characters at either end. -/
def clean_line (l : List Char) : List Char :=
  pyStripChars isBOM (pyStrip l)

/-- A paragraph as delivered by the paragraph source: the style name
and the raw text (`p.style.name.lower()` is modelled by lowering the
style name at comparison time). -/
structure Paragraph where
  style : List Char
  text : List Char
deriving DecidableEq, Repr

/-- One emitted FAQ record, the dict
`{text: ..., section: ..., question: ...}` built in `parse_document`. -/
structure Record where
  text : List Char
  «section» : List Char
  question : List Char
deriving DecidableEq, Repr

/-- The mutable locals of `parse_document` during the loop. -/
structure ParseState where
  questions : List Record
  section_title : List Char
  question_title : List Char
  answer_text_so_far : List Char
deriving DecidableEq, Repr

/-- `'heading 2'`, the question heading style of the source. -/
def question_heading_style : List Char := ("heading 2").data

/-- `'heading 1'`, the section heading style of the source. -/
def section_heading_style : List Char := ("heading 1").data

/-- `p.style.name.lower()` — ASCII lowering of the style name. -/
def styleLower (p : Paragraph) : List Char := p.style.map Char.toLower

/-- The flush guard and append of `parse_document`: when
`answer_text_so_far and section_title and question_title` (Python
truthiness: all three non-empty) append the record
`{text: answer_text_so_far.strip(), section: section_title,
question: question_title}`. -/
def flushQuestions (st : ParseState) : List Record :=
  if st.answer_text_so_far ≠ [] ∧ st.section_title ≠ [] ∧
      st.question_title ≠ [] then
    st.questions ++
      [⟨pyStrip st.answer_text_so_far, st.section_title, st.question_title⟩]
  else
    st.questions

/-- One iteration of the `for p in doc.paragraphs` loop of
`parse_document`. -/
def step (st : ParseState) (p : Paragraph) : ParseState :=
  let p_text := clean_line p.text
  if p_text = [] then st
  else if styleLower p = section_heading_style then
    { st with section_title := p_text }
  else if styleLower p = question_heading_style then
    { questions := flushQuestions st
      section_title := st.section_title
      question_title := p_text
      answer_text_so_far := [] }
  else
    { st with answer_text_so_far := st.answer_text_so_far ++ '\n' :: p_text }

/-- The initial parse state: all three string locals empty, no
questions collected. -/
def initState : ParseState := ⟨[], [], [], []⟩

/-- `parse_document`: fold the loop body over the paragraph sequence,
then perform the final flush after the loop. -/
def parse_document (ps : List Paragraph) : List Record :=
  flushQuestions (ps.foldl step initState)

/-- `parse_document` resumed from an arbitrary intermediate state:
fold the loop body from `st`, then perform the final flush. -/
def parse_from (st : ParseState) (ps : List Paragraph) : List Record :=
  flushQuestions (ps.foldl step st)

/-- The normalizer exactly as the specification words it: leading and
trailing whitespace removed, and any leading byte-order-mark artifact
stripped. -/
def spec_normalize (l : List Char) : List Char :=
  (pyStrip l).dropWhile isBOM

/-- The amended normalizer contract: whitespace stripped from both
ends first, then byte-order-mark characters stripped from both ends
(not only the leading end). -/
def spec_normalize_amended (l : List Char) : List Char :=
  ((pyStrip l).dropWhile isBOM).rdropWhile isBOM

/-- All records in a list have non-empty section and question. -/
def goodSQ (rs : List Record) : Prop :=
  ∀ r ∈ rs, r.«section» ≠ [] ∧ r.question ≠ []

/-- All records in a list have non-empty answer text. -/
def goodT (rs : List Record) : Prop := ∀ r ∈ rs, r.text ≠ []

/-- The accumulated body is empty or contains a non-whitespace
character. -/
def bodyOk (l : List Char) : Prop :=
  l = [] ∨ ∃ c ∈ l, isPySpace c = false

/-- The paragraph's normalized text is empty or contains a
non-whitespace character. -/
def textOk (p : Paragraph) : Prop :=
  clean_line p.text = [] ∨ ∃ c ∈ clean_line p.text, isPySpace c = false

instance (p : Paragraph) : Decidable (textOk p) := by
  unfold textOk
  infer_instance

/-- A paragraph acts as a question heading in the loop only when its
style is the question heading style and its normalized text is
non-empty. -/
def effectiveQuestion (p : Paragraph) : Prop :=
  styleLower p = question_heading_style ∧ clean_line p.text ≠ []

instance (p : Paragraph) : Decidable (effectiveQuestion p) := by
  unfold effectiveQuestion
  infer_instance

/-- The parse state of the specification text, with the field names
used there (section 3, Parse State) plus the list of records emitted
so far. -/
structure SpecState where
  current_section : List Char
  current_question : List Char
  accumulated_body : List Char
  emitted : List Record
deriving DecidableEq, Repr

/-- The specification's flush: if `accumulated_body`,
`current_section` and `current_question` are all non-empty, emit
{section: current_section, question: current_question, text:
accumulated_body trimmed of surrounding whitespace}. -/
def spec_flush (s : SpecState) : List Record :=
  if s.accumulated_body ≠ [] ∧ s.current_section ≠ [] ∧
      s.current_question ≠ [] then
    s.emitted ++
      [⟨pyStrip s.accumulated_body, s.current_section, s.current_question⟩]
  else
    s.emitted

/-- One step of the specification's algorithm (section 4.2, steps
1-4): skip empty normalized text; a section heading only sets
`current_section`; a question heading flushes then sets
`current_question` and resets `accumulated_body` regardless of
whether a flush occurred; anything else appends a newline and the
normalized text to `accumulated_body`. -/
def spec_step (s : SpecState) (p : Paragraph) : SpecState :=
  let t := clean_line p.text
  if t = [] then s
  else if styleLower p = section_heading_style then
    { s with current_section := t }
  else if styleLower p = question_heading_style then
    { current_section := s.current_section
      current_question := t
      accumulated_body := []
      emitted := spec_flush s }
  else
    { s with accumulated_body := s.accumulated_body ++ '\n' :: t }

/-- The specification's parser (section 4.2): the single pass over
the paragraph sequence followed by one final flush with the same
all-non-empty condition. -/
def spec_parse (ps : List Paragraph) : List Record :=
  spec_flush (ps.foldl spec_step ⟨[], [], [], []⟩)

/-- The field-for-field translation between the specification's parse
state and the source's loop locals. -/
def toParseState (s : SpecState) : ParseState :=
  ⟨s.emitted, s.current_section, s.current_question, s.accumulated_body⟩

/-- Parse state instrumented with the index of the paragraph at which
each record was flushed (its closing question heading, or the length
of the sequence for the final flush). -/
structure AnnState where
  questions : List (Nat × Record)
  section_title : List Char
  question_title : List Char
  answer_text_so_far : List Char
deriving DecidableEq, Repr

/-- The flush of the instrumented parser, tagging the emitted record
with the index `i` of the closing paragraph. -/
def flushAnn (i : Nat) (st : AnnState) : List (Nat × Record) :=
  if st.answer_text_so_far ≠ [] ∧ st.section_title ≠ [] ∧
      st.question_title ≠ [] then
    st.questions ++
      [(i, ⟨pyStrip st.answer_text_so_far, st.section_title,
            st.question_title⟩)]
  else
    st.questions

/-- The loop body of the instrumented parser, consuming an indexed
paragraph. -/
def stepAnn (st : AnnState) (ip : Nat × Paragraph) : AnnState :=
  let t := clean_line ip.2.text
  if t = [] then st
  else if styleLower ip.2 = section_heading_style then
    { st with section_title := t }
  else if styleLower ip.2 = question_heading_style then
    { questions := flushAnn ip.1 st
      section_title := st.section_title
      question_title := t
      answer_text_so_far := [] }
  else
    { st with answer_text_so_far := st.answer_text_so_far ++ '\n' :: t }

/-- The instrumented parser: identical to `parse_document` but each
record is paired with the index of its closing flush point. -/
def parse_ann (ps : List Paragraph) : List (Nat × Record) :=
  flushAnn ps.length (ps.enum.foldl stepAnn ⟨[], [], [], []⟩)

/-- Forgetting the instrumentation of an annotated state. -/
def eraseAnn (st : AnnState) : ParseState :=
  ⟨st.questions.map Prod.snd, st.section_title, st.question_title,
    st.answer_text_so_far⟩

/-- The flush indices recorded so far, in emission order. -/
def tags (st : AnnState) : List Nat := st.questions.map Prod.fst

/-- One `{course: ..., documents: ...}` entry of the aggregate built
by `process_faq_documents`. -/
structure Bundle where
  course : List Char
  documents : List Record
deriving DecidableEq, Repr

/-- `read_faq`: fetch (and decode) the document for a file id, then
parse it.  The paragraph source `fetch` is the external collaborator;
its failures are values of `Except`. -/
def read_faq {ε : Type} (fetch : List Char → Except ε (List Paragraph))
    (file_id : List Char) : Except ε (List Record) :=
  (fetch file_id).map parse_document

/-- `process_faq_documents`: iterate the course-to-file-id mapping in
order, fetch-then-parse each source, and collect the bundles.  A
failing fetch is not caught and aborts the whole batch. -/
def process_faq_documents {ε : Type}
    (fetch : List Char → Except ε (List Paragraph)) :
    List (List Char × List Char) → Except ε (List Bundle)
  | [] => Except.ok []
  | (course, file_id) :: rest => do
    let docs ← read_faq fetch file_id
    let tail ← process_faq_documents fetch rest
    Except.ok (⟨course, docs⟩ :: tail)

/-- The orchestration of `main`: build the whole aggregate, then hand
it to the persistence sink `save` (`save_documents_to_mongodb`).  The
sink runs only when every fetch succeeded. -/
def run_workflow {ε σ : Type}
    (fetch : List Char → Except ε (List Paragraph))
    (save : List Bundle → σ) (docs : List (List Char × List Char)) :
    Except ε σ :=
  (process_faq_documents fetch docs).map save

/-- The failing paragraph source of the scenario-D witness: the fetch
of file id `B` fails, the others return an empty document. -/
def fetchD (file_id : List Char) : Except (List Char) (List Paragraph) :=
  if file_id = ("B").data then Except.error ("boom").data
  else Except.ok []

/-- The three-source batch of the scenario-D witness; the second
source has the failing file id. -/
def docsD : List (List Char × List Char) :=
  [(("c1").data, ("A").data), (("c2").data, ("B").data),
   (("c3").data, ("C").data)]

/-! ## Sanity checks -/

example :
    parse_document
      [⟨("Heading 1").data, ("General").data⟩,
       ⟨("Heading 2").data, ("What is X?").data⟩,
       ⟨("Normal").data, ("X is a thing.").data⟩,
       ⟨("Heading 2").data, ("What is Y?").data⟩,
       ⟨("Normal").data, ("Y is another.").data⟩] =
      [⟨("X is a thing.").data, ("General").data, ("What is X?").data⟩,
       ⟨("Y is another.").data, ("General").data, ("What is Y?").data⟩] := by
  decide

example : clean_line ("  hi  ").data = ("hi").data := by decide

example : clean_line ['﻿', ' ', 'a'] = [' ', 'a'] := by decide

/-! ## Helper lemmas about one-sided and two-sided stripping -/

theorem dropWhile_eq_self_of_head {α : Type} (p : α → Bool) (l : List α)
    (h : ∀ x, l.head? = some x → p x = false) : l.dropWhile p = l := by
  cases l with
  | nil => rfl
  | cons a t =>
    have ha : p a = false := h a rfl
    simp [List.dropWhile_cons, ha]

theorem pyStripChars_head (p : Char → Bool) (l : List Char) (x : Char)
    (hx : (pyStripChars p l).head? = some x) : p x = false := by
  obtain ⟨t, ht⟩ := List.rdropWhile_prefix p (l.dropWhile p)
  have hm : (l.dropWhile p).head? = some x := by
    rw [← ht, List.head?_append]
    unfold pyStripChars at hx
    rw [hx]
    rfl
  have hmatch := List.head?_dropWhile_not p l
  rw [hm] at hmatch
  exact hmatch

theorem pyStripChars_idem (p : Char → Bool) (l : List Char) :
    pyStripChars p (pyStripChars p l) = pyStripChars p l := by
  have h1 : (pyStripChars p l).dropWhile p = pyStripChars p l :=
    dropWhile_eq_self_of_head p _ (pyStripChars_head p l)
  show ((pyStripChars p l).dropWhile p).rdropWhile p = pyStripChars p l
  rw [h1]
  exact List.rdropWhile_idempotent _ _

theorem mem_of_mem_pyStripChars {p : Char → Bool} {l : List Char} {c : Char}
    (h : c ∈ pyStripChars p l) : c ∈ l :=
  (List.dropWhile_suffix p).subset ((List.rdropWhile_prefix p _).subset h)

theorem pyStripChars_eq_self_of_not {p : Char → Bool} {l : List Char}
    (h : ∀ c ∈ l, p c = false) : pyStripChars p l = l := by
  have h1 : l.dropWhile p = l := by
    apply dropWhile_eq_self_of_head
    intro x hx
    exact h x (List.mem_of_mem_head? hx)
  show (l.dropWhile p).rdropWhile p = l
  rw [h1, List.rdropWhile_eq_self_iff]
  intro hl
  rw [h _ (List.getLast_mem hl)]
  simp

theorem clean_line_of_no_bom {l : List Char}
    (h : ∀ c ∈ l, isBOM c = false) : clean_line l = pyStrip l := by
  unfold clean_line
  apply pyStripChars_eq_self_of_not
  intro c hc
  exact h c (mem_of_mem_pyStripChars hc)

theorem mem_dropWhile_of_not {α : Type} (p : α → Bool) {l : List α} {c : α}
    (hc : c ∈ l) (hpc : p c = false) : c ∈ l.dropWhile p := by
  induction l with
  | nil => cases hc
  | cons a t ih =>
    by_cases hpa : p a
    · rw [List.dropWhile_cons_of_pos hpa]
      rcases List.mem_cons.mp hc with rfl | hmem
      · rw [hpa] at hpc; cases hpc
      · exact ih hmem
    · rw [List.dropWhile_cons_of_neg hpa]
      exact hc

theorem pyStrip_ne_nil {l : List Char}
    (h : ∃ c ∈ l, isPySpace c = false) : pyStrip l ≠ [] := by
  obtain ⟨c, hc, hcs⟩ := h
  intro hnil
  have hmem : c ∈ l.dropWhile isPySpace := mem_dropWhile_of_not _ hc hcs
  have := (List.rdropWhile_eq_nil_iff).mp hnil c hmem
  rw [hcs] at this
  cases this

/-! ## Case lemmas for the loop body -/

theorem heading_styles_ne : question_heading_style ≠ section_heading_style := by
  decide

theorem step_skip (st : ParseState) (p : Paragraph)
    (h : clean_line p.text = []) : step st p = st := by
  simp [step, h]

theorem step_section_eq (st : ParseState) (p : Paragraph)
    (h1 : clean_line p.text ≠ []) (h2 : styleLower p = section_heading_style) :
    step st p = { st with section_title := clean_line p.text } := by
  simp [step, h1, h2]

theorem step_question_eq (st : ParseState) (p : Paragraph)
    (h1 : clean_line p.text ≠ []) (h2 : styleLower p = question_heading_style) :
    step st p =
      ⟨flushQuestions st, st.section_title, clean_line p.text, []⟩ := by
  have h3 : styleLower p ≠ section_heading_style := by
    rw [h2]; exact heading_styles_ne
  simp [step, h1, h2, h3, heading_styles_ne]

theorem step_body_eq (st : ParseState) (p : Paragraph)
    (h1 : clean_line p.text ≠ [])
    (h2 : styleLower p ≠ section_heading_style)
    (h3 : styleLower p ≠ question_heading_style) :
    step st p =
      { st with answer_text_so_far :=
          st.answer_text_so_far ++ '\n' :: clean_line p.text } := by
  simp [step, h1, h2, h3]

theorem flushQuestions_of_empty_body (st : ParseState)
    (h : st.answer_text_so_far = []) : flushQuestions st = st.questions := by
  simp [flushQuestions, h]

theorem flushQuestions_of_empty_question (st : ParseState)
    (h : st.question_title = []) : flushQuestions st = st.questions := by
  simp [flushQuestions, h]

/-! ## The normalizer contract (C3, C4) -/

/-- C3 counterexample: on the line `abc` followed by a byte-order
mark, the code also strips the trailing byte-order mark, so returning
the whitespace-stripped line with only its leading byte-order-mark
artifact removed misdescribes `clean_line`. -/
theorem clean_line_spec_cex :
    clean_line ['a', 'b', 'c', '﻿'] ≠
      spec_normalize ['a', 'b', 'c', '﻿'] := by
  decide

/-- C3 (amended): `clean_line` returns the line with leading/trailing
whitespace removed and then any leading or trailing byte-order-mark
artifact stripped; it is a pure total function and the empty string
maps to the empty string. -/
theorem clean_line_contract :
    (∀ l, clean_line l = spec_normalize_amended l) ∧ clean_line [] = [] :=
  ⟨fun _ => rfl, rfl⟩

/-- C4 counterexample: `clean_line` is not idempotent.  On a
byte-order mark followed by a space and `a`, the first pass strips
nothing but the byte-order mark (the space was shielded from
whitespace stripping), so a second pass still finds whitespace to
strip. -/
theorem clean_line_not_idempotent :
    clean_line (clean_line ['﻿', ' ', 'a']) ≠
      clean_line ['﻿', ' ', 'a'] := by
  decide

/-- C4 (amended): `clean_line` is idempotent on every input that
contains no byte-order-mark character. -/
theorem clean_line_idempotent_of_no_bom (l : List Char)
    (h : ∀ c ∈ l, isBOM c = false) :
    clean_line (clean_line l) = clean_line l := by
  rw [clean_line_of_no_bom h]
  have hs : ∀ c ∈ pyStrip l, isBOM c = false := fun c hc =>
    h c (mem_of_mem_pyStripChars hc)
  rw [clean_line_of_no_bom hs]
  exact pyStripChars_idem _ _

/-- Witness for C4 (amended) at the concrete input `"  hi  "`. -/
theorem clean_line_idempotent_of_no_bom_witness :
    clean_line (clean_line ("  hi  ").data) = clean_line ("  hi  ").data :=
  clean_line_idempotent_of_no_bom ("  hi  ").data (by decide)

/-! ## The record-field invariant (C1) -/

theorem goodSQ_flush {st : ParseState} (h : goodSQ st.questions) :
    goodSQ (flushQuestions st) := by
  unfold flushQuestions
  split
  · rename_i hcond
    intro r hr
    rcases List.mem_append.mp hr with h1 | h2
    · exact h r h1
    · rcases List.mem_singleton.mp h2 with rfl
      exact ⟨hcond.2.1, hcond.2.2⟩
  · exact h

theorem goodT_flush {st : ParseState} (ha : bodyOk st.answer_text_so_far)
    (h : goodT st.questions) : goodT (flushQuestions st) := by
  unfold flushQuestions
  split
  · rename_i hcond
    intro r hr
    rcases List.mem_append.mp hr with h1 | h2
    · exact h r h1
    · rcases List.mem_singleton.mp h2 with rfl
      rcases ha with hnil | hex
      · exact absurd hnil hcond.1
      · exact pyStrip_ne_nil hex
  · exact h

theorem goodSQ_step (st : ParseState) (p : Paragraph)
    (h : goodSQ st.questions) : goodSQ (step st p).questions := by
  by_cases h0 : clean_line p.text = []
  · rw [step_skip st p h0]; exact h
  by_cases h1 : styleLower p = section_heading_style
  · rw [step_section_eq st p h0 h1]; exact h
  by_cases h2 : styleLower p = question_heading_style
  · rw [step_question_eq st p h0 h2]; exact goodSQ_flush h
  · rw [step_body_eq st p h0 h1 h2]; exact h

theorem goodSQ_foldl (ps : List Paragraph) :
    ∀ st : ParseState, goodSQ st.questions →
      goodSQ ((ps.foldl step st)).questions := by
  induction ps with
  | nil => exact fun st h => h
  | cons p rest ih =>
    intro st h
    exact ih (step st p) (goodSQ_step st p h)

theorem goodT_step (st : ParseState) (p : Paragraph) (hp : textOk p)
    (ha : bodyOk st.answer_text_so_far) (h : goodT st.questions) :
    bodyOk (step st p).answer_text_so_far ∧ goodT (step st p).questions := by
  by_cases h0 : clean_line p.text = []
  · rw [step_skip st p h0]; exact ⟨ha, h⟩
  by_cases h1 : styleLower p = section_heading_style
  · rw [step_section_eq st p h0 h1]; exact ⟨ha, h⟩
  by_cases h2 : styleLower p = question_heading_style
  · rw [step_question_eq st p h0 h2]
    exact ⟨Or.inl rfl, goodT_flush ha h⟩
  · rw [step_body_eq st p h0 h1 h2]
    refine ⟨?_, h⟩
    rcases hp with hnil | ⟨c, hc, hcs⟩
    · exact absurd hnil h0
    · exact Or.inr ⟨c, List.mem_append.mpr
        (Or.inr (List.mem_cons.mpr (Or.inr hc))), hcs⟩

theorem goodT_foldl (ps : List Paragraph) (hp : ∀ p ∈ ps, textOk p) :
    ∀ st : ParseState, bodyOk st.answer_text_so_far → goodT st.questions →
      bodyOk ((ps.foldl step st)).answer_text_so_far ∧
        goodT ((ps.foldl step st)).questions := by
  induction ps with
  | nil => exact fun st ha h => ⟨ha, h⟩
  | cons p rest ih =>
    intro st ha h
    have hstep := goodT_step st p (hp p (List.mem_cons_self p rest)) ha h
    exact ih (fun q hq => hp q (List.mem_cons.mpr (Or.inr hq)))
      (step st p) hstep.1 hstep.2

/-- C1 counterexample: the parser can emit a record whose answer text
is empty.  A body paragraph whose raw text is a byte-order mark, a
space and a byte-order mark normalizes to a single space (whitespace
is stripped before the byte-order marks), the accumulated body is
then truthy, and the flush trims it to the empty string. -/
theorem parse_document_empty_text_cex :
    parse_document
      [⟨("Heading 1").data, ("S").data⟩,
       ⟨("Heading 2").data, ("Q?").data⟩,
       ⟨("Normal").data, ['﻿', ' ', '﻿']⟩,
       ⟨("Heading 2").data, ("Q2").data⟩] =
      [⟨[], ("S").data, ("Q?").data⟩] := by
  decide

/-- C1 (amended): every emitted record has non-empty section and
question; the answer text is also non-empty provided every
paragraph's normalized text, when non-empty, contains at least one
non-whitespace character (the counterexample above shows the text can
be empty when a byte-order mark shields whitespace from the
normalizer). -/
theorem parse_document_record_fields (ps : List Paragraph) :
    (∀ r ∈ parse_document ps, r.«section» ≠ [] ∧ r.question ≠ []) ∧
    ((∀ p ∈ ps, textOk p) → ∀ r ∈ parse_document ps, r.text ≠ []) := by
  constructor
  · exact goodSQ_flush (goodSQ_foldl ps initState (fun r hr => by cases hr))
  · intro hp
    have h := goodT_foldl ps hp initState (Or.inl rfl) (fun r hr => by cases hr)
    exact goodT_flush h.1 h.2

/-- Witness for C1 (amended): the one record of a concrete
scenario-A style input has non-empty section, question and text. -/
theorem parse_document_record_fields_witness :
    (⟨("A.").data, ("General").data, ("Q?").data⟩ : Record).«section» ≠ [] ∧
    (⟨("A.").data, ("General").data, ("Q?").data⟩ : Record).question ≠ [] ∧
    (⟨("A.").data, ("General").data, ("Q?").data⟩ : Record).text ≠ [] :=
  ⟨((parse_document_record_fields
      [⟨("Heading 1").data, ("General").data⟩,
       ⟨("Heading 2").data, ("Q?").data⟩,
       ⟨("Normal").data, ("A.").data⟩]).1
      ⟨("A.").data, ("General").data, ("Q?").data⟩ (by decide)).1,
   ((parse_document_record_fields
      [⟨("Heading 1").data, ("General").data⟩,
       ⟨("Heading 2").data, ("Q?").data⟩,
       ⟨("Normal").data, ("A.").data⟩]).1
      ⟨("A.").data, ("General").data, ("Q?").data⟩ (by decide)).2,
   (parse_document_record_fields
      [⟨("Heading 1").data, ("General").data⟩,
       ⟨("Heading 2").data, ("Q?").data⟩,
       ⟨("Normal").data, ("A.").data⟩]).2 (by decide)
      ⟨("A.").data, ("General").data, ("Q?").data⟩ (by decide)⟩

/-! ## Frame property of section headings (C5) -/

/-- C5: processing a section-heading paragraph with non-empty
normalized text only sets `section_title` to that text: it emits no
record and leaves `question_title` and `answer_text_so_far`
unchanged, so a section heading never flushes a pending question
block. -/
theorem section_heading_frame (st : ParseState) (p : Paragraph)
    (h1 : styleLower p = section_heading_style)
    (h2 : clean_line p.text ≠ []) :
    (step st p).questions = st.questions ∧
    (step st p).section_title = clean_line p.text ∧
    (step st p).question_title = st.question_title ∧
    (step st p).answer_text_so_far = st.answer_text_so_far := by
  rw [step_section_eq st p h2 h1]
  exact ⟨rfl, rfl, rfl, rfl⟩

/-- Witness for C5 on a concrete pending-question state. -/
theorem section_heading_frame_witness :
    (step ⟨[], ("Old").data, ("Q?").data, ("\nbody").data⟩
        ⟨("Heading 1").data, ("New").data⟩).questions = [] ∧
    (step ⟨[], ("Old").data, ("Q?").data, ("\nbody").data⟩
        ⟨("Heading 1").data, ("New").data⟩).section_title =
      clean_line ("New").data ∧
    (step ⟨[], ("Old").data, ("Q?").data, ("\nbody").data⟩
        ⟨("Heading 1").data, ("New").data⟩).question_title = ("Q?").data ∧
    (step ⟨[], ("Old").data, ("Q?").data, ("\nbody").data⟩
        ⟨("Heading 1").data, ("New").data⟩).answer_text_so_far =
      ("\nbody").data :=
  section_heading_frame ⟨[], ("Old").data, ("Q?").data, ("\nbody").data⟩
    ⟨("Heading 1").data, ("New").data⟩ (by decide) (by decide)

/-! ## Adjacent question headings drop the first question (C6) -/

/-- C6: a question-heading paragraph immediately followed by another
question heading produces no record at the second heading's flush
(the accumulated body is empty there), and the first heading's
question title has been replaced by the second's, so the first
question is dropped. -/
theorem question_question_drops_first (st : ParseState) (p q : Paragraph)
    (hp1 : styleLower p = question_heading_style)
    (hp2 : clean_line p.text ≠ [])
    (hq1 : styleLower q = question_heading_style)
    (hq2 : clean_line q.text ≠ []) :
    (step (step st p) q).questions = (step st p).questions ∧
    (step (step st p) q).question_title = clean_line q.text ∧
    (step st p).question_title = clean_line p.text := by
  rw [step_question_eq st p hp2 hp1]
  rw [step_question_eq _ q hq2 hq1]
  refine ⟨?_, rfl, rfl⟩
  exact flushQuestions_of_empty_body
    ⟨flushQuestions st, st.section_title, clean_line p.text, []⟩ rfl

/-- Witness for C6 on two adjacent concrete question headings. -/
theorem question_question_drops_first_witness :
    (step (step ⟨[], ("S").data, [], []⟩ ⟨("Heading 2").data, ("Q1?").data⟩)
        ⟨("Heading 2").data, ("Q2?").data⟩).questions =
      (step ⟨[], ("S").data, [], []⟩
        ⟨("Heading 2").data, ("Q1?").data⟩).questions ∧
    (step (step ⟨[], ("S").data, [], []⟩ ⟨("Heading 2").data, ("Q1?").data⟩)
        ⟨("Heading 2").data, ("Q2?").data⟩).question_title =
      clean_line ("Q2?").data ∧
    (step ⟨[], ("S").data, [], []⟩
        ⟨("Heading 2").data, ("Q1?").data⟩).question_title =
      clean_line ("Q1?").data :=
  question_question_drops_first ⟨[], ("S").data, [], []⟩
    ⟨("Heading 2").data, ("Q1?").data⟩ ⟨("Heading 2").data, ("Q2?").data⟩
    (by decide) (by decide) (by decide) (by decide)

/-! ## The parser refines the specification's algorithm (C2) -/

theorem spec_step_toParseState (s : SpecState) (p : Paragraph) :
    step (toParseState s) p = toParseState (spec_step s p) := by
  by_cases h0 : clean_line p.text = []
  · rw [step_skip _ p h0]
    simp [spec_step, h0]
  by_cases h1 : styleLower p = section_heading_style
  · rw [step_section_eq _ p h0 h1]
    simp [spec_step, h0, h1, toParseState]
  by_cases h2 : styleLower p = question_heading_style
  · rw [step_question_eq _ p h0 h2]
    simp [spec_step, h0, h1, h2, toParseState, flushQuestions, spec_flush,
      heading_styles_ne]
  · rw [step_body_eq _ p h0 h1 h2]
    simp [spec_step, h0, h1, h2, toParseState]

theorem spec_foldl_toParseState (ps : List Paragraph) :
    ∀ s : SpecState,
      ps.foldl step (toParseState s) = toParseState (ps.foldl spec_step s) := by
  induction ps with
  | nil => exact fun s => rfl
  | cons p rest ih =>
    intro s
    show rest.foldl step (step (toParseState s) p) = _
    rw [spec_step_toParseState s p]
    exact ih (spec_step s p)

theorem spec_flush_toParseState (s : SpecState) :
    flushQuestions (toParseState s) = spec_flush s := rfl

/-- C2: `parse_document` computes exactly the record sequence of the
specification's algorithm — at every question heading with non-empty
normalized text it emits {section: current_section, question:
current_question, text: trimmed accumulated body} if and only if all
three of the accumulated body, current section and current question
are non-empty, then sets the current question and resets the body
regardless, and after the loop one final flush with the same
condition appends the last record if applicable. -/
theorem parse_document_eq_spec_parse (ps : List Paragraph) :
    parse_document ps = spec_parse ps := by
  show flushQuestions (ps.foldl step initState) = _
  have hinit : initState = toParseState ⟨[], [], [], []⟩ := rfl
  rw [hinit, spec_foldl_toParseState ps ⟨[], [], [], []⟩,
    spec_flush_toParseState]
  rfl

/-! ## The section of a record is the one current at its flush (C9) -/

theorem append_cons_ne_nil {α : Type} (l : List α) (a : α) (t : List α) :
    l ++ a :: t ≠ [] := by
  simp

/-- C9: when a section heading intervenes between a question heading
and the flush that closes it, the emitted record carries the later
section title (the one current at the closing question heading), not
the one current when the question was read.  Starting from any state
with a pending question, a section heading, a body paragraph and a
closing question heading emit exactly one record whose section is the
new section title, independently of `st.section_title`. -/
theorem record_section_is_flush_time (st : ParseState) (s b q : Paragraph)
    (hs1 : styleLower s = section_heading_style)
    (hs2 : clean_line s.text ≠ [])
    (hb1 : styleLower b ≠ section_heading_style)
    (hb2 : styleLower b ≠ question_heading_style)
    (hb3 : clean_line b.text ≠ [])
    (hq1 : styleLower q = question_heading_style)
    (hq2 : clean_line q.text ≠ [])
    (hpending : st.question_title ≠ []) :
    ([s, b, q].foldl step st).questions =
      st.questions ++
        [⟨pyStrip (st.answer_text_so_far ++ '\n' :: clean_line b.text),
          clean_line s.text, st.question_title⟩] := by
  show (step (step (step st s) b) q).questions = _
  rw [step_section_eq st s hs2 hs1]
  rw [step_body_eq _ b hb3 hb1 hb2]
  rw [step_question_eq _ q hq2 hq1]
  show flushQuestions
    ⟨st.questions, clean_line s.text, st.question_title,
      st.answer_text_so_far ++ '\n' :: clean_line b.text⟩ = _
  unfold flushQuestions
  rw [if_pos ⟨append_cons_ne_nil _ _ _, hs2, hpending⟩]

/-- Witness for C9: the question asked under section `Old` is flushed
under section `New`. -/
theorem record_section_is_flush_time_witness :
    ([(⟨("Heading 1").data, ("New").data⟩ : Paragraph),
      ⟨("Normal").data, ("body").data⟩,
      ⟨("Heading 2").data, ("Q2?").data⟩].foldl step
        ⟨[], ("Old").data, ("Q1?").data, []⟩).questions =
      [] ++
        [⟨pyStrip ([] ++ '\n' :: clean_line ("body").data),
          clean_line ("New").data, ("Q1?").data⟩] :=
  record_section_is_flush_time ⟨[], ("Old").data, ("Q1?").data, []⟩
    ⟨("Heading 1").data, ("New").data⟩ ⟨("Normal").data, ("body").data⟩
    ⟨("Heading 2").data, ("Q2?").data⟩
    (by decide) (by decide) (by decide) (by decide) (by decide)
    (by decide) (by decide) (by decide)

/-! ## Bodies before the first question heading are discarded (C10) -/

theorem foldl_no_question (pre : List Paragraph)
    (hpre : ∀ p ∈ pre, ¬effectiveQuestion p) :
    ∀ st : ParseState, st.questions = [] → st.question_title = [] →
      (pre.foldl step st).questions = [] ∧
        (pre.foldl step st).question_title = [] := by
  induction pre with
  | nil => exact fun st h1 h2 => ⟨h1, h2⟩
  | cons p rest ih =>
    intro st h1 h2
    have hrest : ∀ q ∈ rest, ¬effectiveQuestion q := fun q hq =>
      hpre q (List.mem_cons.mpr (Or.inr hq))
    have hp : ¬effectiveQuestion p := hpre p (List.mem_cons_self p rest)
    rw [List.foldl_cons]
    by_cases h0 : clean_line p.text = []
    · rw [step_skip st p h0]
      exact ih hrest st h1 h2
    by_cases hq : styleLower p = question_heading_style
    · exact absurd ⟨hq, h0⟩ hp
    by_cases hsec : styleLower p = section_heading_style
    · rw [step_section_eq st p h0 hsec]
      exact ih hrest _ h1 h2
    · rw [step_body_eq st p h0 hsec hq]
      exact ih hrest _ h1 h2

/-- C10: body paragraphs before the first (effective) question
heading never reach any emitted record.  Parsing `pre ++ q :: rest`,
where `pre` contains no effective question heading and `q` is one, is
the same as parsing `q :: rest` from a fresh state that only inherits
the section title accumulated over `pre`: no record is emitted for
`pre`, and its accumulated body is reset and discarded at `q`. -/
theorem body_before_first_question_discarded (pre : List Paragraph)
    (q : Paragraph) (rest : List Paragraph)
    (hpre : ∀ p ∈ pre, ¬effectiveQuestion p)
    (hq : effectiveQuestion q) :
    parse_document (pre ++ q :: rest) =
      parse_from
        ⟨[], (pre.foldl step initState).section_title, clean_line q.text, []⟩
        rest := by
  show flushQuestions ((pre ++ q :: rest).foldl step initState) = _
  rw [List.foldl_append]
  obtain ⟨hq1, hq2⟩ := hq
  have hpre' := foldl_no_question pre hpre initState rfl rfl
  show flushQuestions ((q :: rest).foldl step (pre.foldl step initState)) = _
  show flushQuestions (rest.foldl step (step (pre.foldl step initState) q)) = _
  rw [step_question_eq _ q hq2 hq1]
  rw [flushQuestions_of_empty_question _ hpre'.2, hpre'.1]
  rfl

/-- Witness for C10: an orphan body line and a section heading before
the first question contribute nothing but the section title. -/
theorem body_before_first_question_discarded_witness :
    parse_document
      [⟨("Normal").data, ("orphan").data⟩,
       ⟨("Heading 1").data, ("S").data⟩,
       ⟨("Heading 2").data, ("Q?").data⟩,
       ⟨("Normal").data, ("A.").data⟩] =
      parse_from
        ⟨[], ([(⟨("Normal").data, ("orphan").data⟩ : Paragraph),
              ⟨("Heading 1").data, ("S").data⟩].foldl step
                initState).section_title,
          clean_line ("Q?").data, []⟩
        [⟨("Normal").data, ("A.").data⟩] :=
  body_before_first_question_discarded
    [⟨("Normal").data, ("orphan").data⟩, ⟨("Heading 1").data, ("S").data⟩]
    ⟨("Heading 2").data, ("Q?").data⟩ [⟨("Normal").data, ("A.").data⟩]
    (by decide) (by decide)

/-! ## Records are emitted in flush order (C7) -/

theorem stepAnn_skip (st : AnnState) (i : Nat) (p : Paragraph)
    (h : clean_line p.text = []) : stepAnn st (i, p) = st := by
  simp [stepAnn, h]

theorem stepAnn_section_eq (st : AnnState) (i : Nat) (p : Paragraph)
    (h1 : clean_line p.text ≠ []) (h2 : styleLower p = section_heading_style) :
    stepAnn st (i, p) = { st with section_title := clean_line p.text } := by
  simp [stepAnn, h1, h2]

theorem stepAnn_question_eq (st : AnnState) (i : Nat) (p : Paragraph)
    (h1 : clean_line p.text ≠ []) (h2 : styleLower p = question_heading_style) :
    stepAnn st (i, p) =
      ⟨flushAnn i st, st.section_title, clean_line p.text, []⟩ := by
  have h3 : styleLower p ≠ section_heading_style := by
    rw [h2]; exact heading_styles_ne
  simp [stepAnn, h1, h2, h3, heading_styles_ne]

theorem stepAnn_body_eq (st : AnnState) (i : Nat) (p : Paragraph)
    (h1 : clean_line p.text ≠ [])
    (h2 : styleLower p ≠ section_heading_style)
    (h3 : styleLower p ≠ question_heading_style) :
    stepAnn st (i, p) =
      { st with answer_text_so_far :=
          st.answer_text_so_far ++ '\n' :: clean_line p.text } := by
  simp [stepAnn, h1, h2, h3]

theorem flushAnn_map (i : Nat) (st : AnnState) :
    (flushAnn i st).map Prod.snd = flushQuestions (eraseAnn st) := by
  unfold flushAnn flushQuestions eraseAnn
  split
  · simp
  · rfl

theorem stepAnn_erase (st : AnnState) (i : Nat) (p : Paragraph) :
    step (eraseAnn st) p = eraseAnn (stepAnn st (i, p)) := by
  by_cases h0 : clean_line p.text = []
  · rw [step_skip _ p h0, stepAnn_skip st i p h0]
  by_cases h1 : styleLower p = section_heading_style
  · rw [step_section_eq _ p h0 h1, stepAnn_section_eq st i p h0 h1]
    rfl
  by_cases h2 : styleLower p = question_heading_style
  · rw [step_question_eq _ p h0 h2, stepAnn_question_eq st i p h0 h2]
    rw [← flushAnn_map i st]
    rfl
  · rw [step_body_eq _ p h0 h1 h2, stepAnn_body_eq st i p h0 h1 h2]
    rfl

theorem foldlAnn_erase (ps : List Paragraph) :
    ∀ (n : Nat) (ast : AnnState),
      eraseAnn ((ps.enumFrom n).foldl stepAnn ast) =
        ps.foldl step (eraseAnn ast) := by
  induction ps with
  | nil => intro n ast; rfl
  | cons p rest ih =>
    intro n ast
    show eraseAnn ((rest.enumFrom (n + 1)).foldl stepAnn (stepAnn ast (n, p))) =
      rest.foldl step (step (eraseAnn ast) p)
    rw [ih (n + 1) (stepAnn ast (n, p)), stepAnn_erase ast n p]

theorem parse_ann_erase (ps : List Paragraph) :
    (parse_ann ps).map Prod.snd = parse_document ps := by
  unfold parse_ann parse_document
  rw [flushAnn_map]
  rw [show ps.enum = ps.enumFrom 0 from rfl]
  rw [foldlAnn_erase ps 0 ⟨[], [], [], []⟩]
  rfl

theorem chain_append_lt {l : List Nat} {i : Nat}
    (hc : List.Chain' (· < ·) l) (hb : ∀ t ∈ l, t < i) :
    List.Chain' (· < ·) (l ++ [i]) := by
  rw [List.chain'_append]
  refine ⟨hc, List.chain'_singleton i, ?_⟩
  intro x hx y hy
  have hxl : x ∈ l := List.mem_of_getLast?_eq_some hx
  have hyi : i = y := by simpa using hy
  rw [← hyi]
  exact hb x hxl

theorem flushAnn_chain (i : Nat) (st : AnnState)
    (hc : List.Chain' (· < ·) (tags st)) (hb : ∀ t ∈ tags st, t < i) :
    List.Chain' (· < ·) ((flushAnn i st).map Prod.fst) := by
  unfold flushAnn
  split
  · rw [List.map_append]
    exact chain_append_lt hc hb
  · exact hc

theorem flushAnn_bound (i : Nat) (st : AnnState)
    (hb : ∀ t ∈ tags st, t < i) :
    ∀ t ∈ (flushAnn i st).map Prod.fst, t < i + 1 := by
  unfold flushAnn
  split
  · rw [List.map_append]
    intro t ht
    rcases List.mem_append.mp ht with h1 | h2
    · exact Nat.lt_succ_of_lt (hb t h1)
    · have : t = i := by simpa using h2
      rw [this]
      exact Nat.lt_succ_self i
  · intro t ht
    exact Nat.lt_succ_of_lt (hb t ht)

theorem stepAnn_inv (st : AnnState) (n : Nat) (p : Paragraph)
    (hc : List.Chain' (· < ·) (tags st)) (hb : ∀ t ∈ tags st, t < n) :
    List.Chain' (· < ·) (tags (stepAnn st (n, p))) ∧
      ∀ t ∈ tags (stepAnn st (n, p)), t < n + 1 := by
  by_cases h0 : clean_line p.text = []
  · rw [stepAnn_skip st n p h0]
    exact ⟨hc, fun t ht => Nat.lt_succ_of_lt (hb t ht)⟩
  by_cases h1 : styleLower p = section_heading_style
  · rw [stepAnn_section_eq st n p h0 h1]
    exact ⟨hc, fun t ht => Nat.lt_succ_of_lt (hb t ht)⟩
  by_cases h2 : styleLower p = question_heading_style
  · rw [stepAnn_question_eq st n p h0 h2]
    exact ⟨flushAnn_chain n st hc hb, flushAnn_bound n st hb⟩
  · rw [stepAnn_body_eq st n p h0 h1 h2]
    exact ⟨hc, fun t ht => Nat.lt_succ_of_lt (hb t ht)⟩

theorem foldlAnn_inv (ps : List Paragraph) :
    ∀ (n : Nat) (st : AnnState), List.Chain' (· < ·) (tags st) →
      (∀ t ∈ tags st, t < n) →
      List.Chain' (· < ·) (tags ((ps.enumFrom n).foldl stepAnn st)) ∧
        ∀ t ∈ tags ((ps.enumFrom n).foldl stepAnn st), t < n + ps.length := by
  induction ps with
  | nil =>
    intro n st hc hb
    exact ⟨hc, fun t ht => by have := hb t ht; omega⟩
  | cons p rest ih =>
    intro n st hc hb
    show List.Chain' _ (tags ((rest.enumFrom (n + 1)).foldl stepAnn
        (stepAnn st (n, p)))) ∧ _
    have h := stepAnn_inv st n p hc hb
    have hrest := ih (n + 1) (stepAnn st (n, p)) h.1 h.2
    refine ⟨hrest.1, fun t ht => ?_⟩
    have := hrest.2 t ht
    simp only [List.length_cons]
    omega

/-- C7: records appear in the parser's output in the encounter order
of their closing flush point.  The instrumented parser `parse_ann`
tags each record with the index of the paragraph that flushed it
(`ps.length` for the end-of-stream flush); erasing the tags yields
exactly `parse_document`, and the recorded tags are strictly
increasing along the output. -/
theorem parse_document_ordering (ps : List Paragraph) :
    parse_document ps = (parse_ann ps).map Prod.snd ∧
      List.Chain' (· < ·) ((parse_ann ps).map Prod.fst) := by
  refine ⟨(parse_ann_erase ps).symm, ?_⟩
  unfold parse_ann
  have h := foldlAnn_inv ps 0 ⟨[], [], [], []⟩ (by simp [tags])
    (by simp [tags])
  rw [show ps.enum = ps.enumFrom 0 from rfl]
  exact flushAnn_chain ps.length _ h.1 (fun t ht => by
    have := h.2 t ht
    omega)

/-! ## A failing fetch aborts the whole batch (C8) -/

/-- C8: if the fetch of any source in the batch fails, the
orchestrator propagates the failure: `process_faq_documents` returns
an error, and for every persistence sink `save` the whole workflow
returns that same error — `save` is never applied, so records already
produced for earlier sources are never persisted. -/
theorem fetch_error_aborts_batch {ε : Type}
    (fetch : List Char → Except ε (List Paragraph))
    (docs : List (List Char × List Char))
    (h : ∃ e ∈ docs, ∃ err : ε, fetch e.2 = Except.error err) :
    ∃ err : ε, process_faq_documents fetch docs = Except.error err ∧
      ∀ (σ : Type) (save : List Bundle → σ),
        run_workflow fetch save docs = Except.error err := by
  induction docs with
  | nil =>
    obtain ⟨e, he, _⟩ := h
    cases he
  | cons cf rest ih =>
    obtain ⟨c, f⟩ := cf
    cases hf : fetch f with
    | error err =>
      have hp : process_faq_documents fetch ((c, f) :: rest) =
          Except.error err := by
        unfold process_faq_documents read_faq
        rw [hf]
        rfl
      refine ⟨err, hp, fun σ save => ?_⟩
      unfold run_workflow
      rw [hp]
      rfl
    | ok ps =>
      obtain ⟨e, he, err, herr⟩ := h
      rcases List.mem_cons.mp he with rfl | hrest
      · have herr2 : fetch f = Except.error err := herr
        rw [hf] at herr2
        cases herr2
      · obtain ⟨err2, hp, _⟩ := ih ⟨e, hrest, err, herr⟩
        have hp2 : process_faq_documents fetch ((c, f) :: rest) =
            Except.error err2 := by
          unfold process_faq_documents read_faq
          rw [hf]
          show (process_faq_documents fetch rest).bind _ = _
          rw [hp]
          rfl
        refine ⟨err2, hp2, fun σ save => ?_⟩
        unfold run_workflow
        rw [hp2]
        rfl

/-- Witness for C8, scenario D: three sources, the second of which
fails to fetch; the batch returns an error and no sink is invoked. -/
theorem fetch_error_aborts_batch_witness :
    ∃ err : List Char,
      process_faq_documents fetchD docsD = Except.error err ∧
      ∀ (σ : Type) (save : List Bundle → σ),
        run_workflow fetchD save docsD = Except.error err :=
  fetch_error_aborts_batch fetchD docsD
    ⟨((("c2").data, ("B").data)), by decide, ("boom").data, by rfl⟩
